import Mathlib

/-!
Verification of the order lifecycle and order-status state machine of the
family-grocery marketplace backend.

The relational store is embedded as lists of rows (`Store`), one list per
table, together with the serial-id counters of the two tables the handlers
insert into.  Monetary `numeric(10,2)` columns (stored as strings in the
database and converted with `parseFloat` / `toString` at the handler
boundary) are embedded as rationals; the string round-trip is the identity
on such values and is therefore elided.  `timestamp` columns are embedded
as a `Nat` clock value; each handler receives the current clock `now` in
place of its calls to `new Date()`.

Each database statement of the handlers is embedded in source order as an
explicit transformation of the threaded `Store`.  `db.transaction` (used by
`createOrder` only) is embedded by running the transaction body and
returning the caller's original store whenever the body ends in an error.
`updateOrderStatus` wraps no transaction: its statements mutate the store
one after another.
-/

namespace FamilyGrocery

/-- The `user_role` enum of the schema. -/
inductive UserRole where
  | customer
  | seller
deriving DecidableEq, Repr

/-- The `order_status` enum of the schema. -/
inductive OrderStatus where
  | pending_confirmation
  | confirmed
  | delivering
  | delivered
  | cancelled
deriving DecidableEq, Repr

/-- The `payment_method` enum of the schema. -/
inductive PaymentMethod where
  | cod
  | bank_transfer
  | momo
  | zalopay
deriving DecidableEq, Repr

/-- The `product_category` enum of the schema. -/
inductive ProductCategory where
  | meat
  | poultry
  | seafood
  | eggs_dairy
  | vegetables
  | fruits
  | spices_condiments
  | grains_cereals
  | beverages
  | others
deriving DecidableEq, Repr

/-- The `unit_of_measurement` enum of the schema. -/
inductive UnitOfMeasurement where
  | kg
  | gram
  | piece
  | dozen
  | liter
  | bottle
  | pack
  | box
  | bundle
deriving DecidableEq, Repr

/-- A row of `usersTable`. -/
structure User where
  id : Nat
  email : String
  full_name : String
  phone : String
  address : Option String
  role : UserRole
  created_at : Nat
  updated_at : Nat
deriving DecidableEq, Repr

/-- A row of `productsTable`.  `stock_quantity` is a plain database
integer, hence `Int` (its non-negativity is an invariant to be proved, not
part of the type). -/
structure Product where
  id : Nat
  name : String
  description : String
  price : ℚ
  category : ProductCategory
  origin : String
  stock_quantity : Int
  unit_of_measurement : UnitOfMeasurement
  images : List String
  seller_id : Nat
  created_at : Nat
  updated_at : Nat
deriving DecidableEq, Repr

/-- A row of `ordersTable`. -/
structure Order where
  id : Nat
  customer_id : Nat
  seller_id : Nat
  total_value : ℚ
  status : OrderStatus
  payment_method : PaymentMethod
  delivery_address : String
  customer_notes : Option String
  created_at : Nat
  updated_at : Nat
deriving DecidableEq, Repr

/-- A row of `orderItemsTable`.  `quantity` comes from the zod-validated
`createOrderInputSchema` (`z.number().int().positive()`), hence `Nat`. -/
structure OrderItem where
  id : Nat
  order_id : Nat
  product_id : Nat
  quantity : Nat
  unit_price : ℚ
  total_price : ℚ
  created_at : Nat
deriving DecidableEq, Repr

/-- The relational store: one list of rows per table, plus the serial-id
counters of the two tables the handlers insert into. -/
structure Store where
  users : List User
  products : List Product
  orders : List Order
  orderItems : List OrderItem
  nextOrderId : Nat
  nextOrderItemId : Nat
deriving DecidableEq, Repr

/-- One element of `CreateOrderInput.items`
(zod: `quantity` positive int, `unit_price` positive). -/
structure OrderItemInput where
  product_id : Nat
  quantity : Nat
  unit_price : ℚ
deriving DecidableEq, Repr

/-- Input type `CreateOrderInput` of `schema.ts`. -/
structure CreateOrderInput where
  customer_id : Nat
  seller_id : Nat
  payment_method : PaymentMethod
  delivery_address : String
  customer_notes : Option String
  items : List OrderItemInput
deriving DecidableEq, Repr

/-- Input type `UpdateOrderStatusInput` of `schema.ts`. -/
structure UpdateOrderStatusInput where
  id : Nat
  status : OrderStatus
  seller_id : Nat
deriving DecidableEq, Repr

/-- The distinguishable error kinds thrown by `createOrder` (each is a
distinct `throw new Error(...)` site; the payloads are the identifying data
interpolated into the message). -/
inductive CreateOrderError where
  | customerNotFound
  | sellerNotFound
  | productNotFoundForSeller (product_id : Nat)
  | insufficientStock (product_id : Nat) (available : Int) (requested : Nat)
  | priceMismatch (product_id : Nat) (current : ℚ) (provided : ℚ)
deriving DecidableEq, Repr

/-- The error kinds of `updateOrderStatus`.  `invalidTransition` is the
handler's own `throw`; `storeFailure` stands for a database statement
itself failing (used only by the fault-injecting variant of the handler). -/
inductive UpdateOrderError where
  | invalidTransition (current target : OrderStatus)
  | storeFailure
deriving DecidableEq, Repr

/-- The stock of the (first) product row with the given id in a product
table, if any. -/
def stockOfP (ps : List Product) (pid : Nat) : Option Int :=
  (ps.find? (fun p => p.id == pid)).map (fun p => p.stock_quantity)

/-- The stock of the (first) product row with the given id, if any:
`SELECT stock_quantity FROM products WHERE id = pid`. -/
def stockOf (s : Store) (pid : Nat) : Option Int :=
  stockOfP s.products pid

/-! ## createOrder (handlers/create_order.ts) -/

/-- One entry of the handler's `validatedItems` array: the input line
together with `total_price` and the `current_stock` captured while
validating (before any stock write of this request). -/
structure ValidatedItem where
  product_id : Nat
  quantity : Nat
  unit_price : ℚ
  total_price : ℚ
  current_stock : Int
deriving DecidableEq, Repr

/-- The `for (const item of input.items)` validation loop of `createOrder`:
per line, in input order, resolve the product by id and seller
(`ProductNotFoundForSeller`), check `product.stock_quantity <
item.quantity` (`InsufficientStock`), check `Math.abs(item.unit_price -
currentPrice) > 0.01` (`PriceMismatch`), then push the validated line and
accumulate `totalValue`.  All reads see the same store `s`: the loop runs
before any write of the transaction. -/
def validateItems (s : Store) (seller_id : Nat) :
    List OrderItemInput → Except CreateOrderError (List ValidatedItem × ℚ)
  | [] => .ok ([], 0)
  | item :: rest =>
    match s.products.find? (fun p => p.id == item.product_id && p.seller_id == seller_id) with
    | none => .error (.productNotFoundForSeller item.product_id)
    | some product =>
      if product.stock_quantity < (item.quantity : Int) then
        .error (.insufficientStock item.product_id product.stock_quantity item.quantity)
      else if |item.unit_price - product.price| > 1/100 then
        .error (.priceMismatch item.product_id product.price item.unit_price)
      else
        match validateItems s seller_id rest with
        | .error e => .error e
        | .ok (vis, total) =>
          .ok (⟨item.product_id, item.quantity, item.unit_price,
                (item.quantity : ℚ) * item.unit_price, product.stock_quantity⟩ :: vis,
               (item.quantity : ℚ) * item.unit_price + total)

/-- Step 4 of `createOrder`: for each validated line, insert one
`order_items` row, then `UPDATE products SET stock_quantity =
item.current_stock - item.quantity, updated_at = now WHERE id =
item.product_id`.  Note the written value uses the `current_stock`
captured at validation time, not the product's stock at write time. -/
def insertItemsAndUpdateStock (orderId : Nat) (now : Nat) :
    List ValidatedItem → Store → Store
  | [], s => s
  | vi :: rest, s =>
    let s1 : Store :=
      { s with
        orderItems := s.orderItems ++
          [⟨s.nextOrderItemId, orderId, vi.product_id, vi.quantity,
            vi.unit_price, vi.total_price, now⟩],
        nextOrderItemId := s.nextOrderItemId + 1 }
    let newStockQuantity := vi.current_stock - (vi.quantity : Int)
    let s2 : Store :=
      { s1 with
        products := s1.products.map (fun p =>
          if p.id == vi.product_id then
            { p with stock_quantity := newStockQuantity, updated_at := now }
          else p) }
    insertItemsAndUpdateStock orderId now rest s2

/-- The body of `createOrder`'s `db.transaction`: validate the customer
(role `customer`), the seller (role `seller`) and every line, insert the
`orders` row with status `pending_confirmation`, then insert the items and
write the stock updates.  Returns the created order and the
post-transaction store. -/
def createOrderTx (s : Store) (input : CreateOrderInput) (now : Nat) :
    Except CreateOrderError (Order × Store) :=
  match s.users.find? (fun u => u.id == input.customer_id && u.role == UserRole.customer) with
  | none => .error .customerNotFound
  | some _ =>
  match s.users.find? (fun u => u.id == input.seller_id && u.role == UserRole.seller) with
  | none => .error .sellerNotFound
  | some _ =>
  match validateItems s input.seller_id input.items with
  | .error e => .error e
  | .ok (validatedItems, totalValue) =>
    let createdOrder : Order :=
      { id := s.nextOrderId
        customer_id := input.customer_id
        seller_id := input.seller_id
        total_value := totalValue
        status := .pending_confirmation
        payment_method := input.payment_method
        delivery_address := input.delivery_address
        customer_notes := input.customer_notes
        created_at := now
        updated_at := now }
    let s1 : Store :=
      { s with orders := s.orders ++ [createdOrder], nextOrderId := s.nextOrderId + 1 }
    .ok (createdOrder, insertItemsAndUpdateStock createdOrder.id now validatedItems s1)

/-- Handler `createOrder`: run the transaction body; on success commit its store,
on any error roll the whole transaction back (the caller's store is
unchanged) and rethrow the error. -/
def createOrder (s : Store) (input : CreateOrderInput) (now : Nat) :
    Except CreateOrderError Order × Store :=
  match createOrderTx s input now with
  | .ok (o, s2) => (.ok o, s2)
  | .error e => (.error e, s)

/-! ## updateOrderStatus (handlers/update_order_status.ts) -/

/-- Table `VALID_STATUS_TRANSITIONS`, the transition table of the handler. -/
def VALID_STATUS_TRANSITIONS : OrderStatus → List OrderStatus
  | .pending_confirmation => [.confirmed, .cancelled]
  | .confirmed => [.delivering, .cancelled]
  | .delivering => [.delivered, .cancelled]
  | .delivered => []
  | .cancelled => []

/-- The `for (const item of orderItems)` loop of `restoreStockQuantities`:
per item, re-read the product's current stock (`SELECT ... WHERE id =
item.product_id`); when a row exists write `stock_quantity = currentStock +
item.quantity`, when none exists skip the item silently. -/
def restoreItems (now : Nat) : List OrderItem → Store → Store
  | [], s => s
  | item :: rest, s =>
    match s.products.find? (fun p => p.id == item.product_id) with
    | none => restoreItems now rest s
    | some product =>
      let s1 : Store :=
        { s with
          products := s.products.map (fun p =>
            if p.id == item.product_id then
              { p with stock_quantity := product.stock_quantity + (item.quantity : Int),
                       updated_at := now }
            else p) }
      restoreItems now rest s1

/-- Helper `restoreStockQuantities(orderId)`: select the order's items, then
restore each one's stock. -/
def restoreStockQuantities (orderId : Nat) (now : Nat) (s : Store) : Store :=
  restoreItems now (s.orderItems.filter (fun item => item.order_id == orderId)) s

/-- Handler `updateOrderStatus`: resolve the order by id and acting seller
(returning `null`, embedded `.ok none`, when the pair misses); reject a
target not in the transition table with `InvalidTransition`; on a
transition into `cancelled` restore the stock; then write the new status
and `updated_at` and return the updated row.  No transaction wraps the
statements; each mutates the threaded store directly. -/
def updateOrderStatus (s : Store) (input : UpdateOrderStatusInput) (now : Nat) :
    Except UpdateOrderError (Option Order) × Store :=
  match s.orders.find? (fun o => o.id == input.id && o.seller_id == input.seller_id) with
  | none => (.ok none, s)
  | some existingOrder =>
    if input.status ∈ VALID_STATUS_TRANSITIONS existingOrder.status then
      let s1 :=
        if input.status == OrderStatus.cancelled && existingOrder.status != OrderStatus.cancelled
        then restoreStockQuantities input.id now s
        else s
      let s2 : Store :=
        { s1 with
          orders := s1.orders.map (fun o =>
            if o.id == input.id then { o with status := input.status, updated_at := now }
            else o) }
      (.ok (s2.orders.find? (fun o => o.id == input.id)), s2)
    else
      (.error (.invalidTransition existingOrder.status input.status), s)

/-- Variant of `updateOrderStatus` with one fault injected: when `statusWriteFails` is
true the final `db.update(ordersTable)` statement itself throws a store
failure.  Because the handler wraps no transaction, every statement already
executed (in particular `restoreStockQuantities`) stays committed; the
handler's `catch` merely logs and rethrows.  With `statusWriteFails =
false` this is exactly `updateOrderStatus`. -/
def updateOrderStatusFaulty (s : Store) (input : UpdateOrderStatusInput) (now : Nat)
    (statusWriteFails : Bool) : Except UpdateOrderError (Option Order) × Store :=
  match s.orders.find? (fun o => o.id == input.id && o.seller_id == input.seller_id) with
  | none => (.ok none, s)
  | some existingOrder =>
    if input.status ∈ VALID_STATUS_TRANSITIONS existingOrder.status then
      let s1 :=
        if input.status == OrderStatus.cancelled && existingOrder.status != OrderStatus.cancelled
        then restoreStockQuantities input.id now s
        else s
      if statusWriteFails then
        (.error .storeFailure, s1)
      else
        let s2 : Store :=
          { s1 with
            orders := s1.orders.map (fun o =>
              if o.id == input.id then { o with status := input.status, updated_at := now }
              else o) }
        (.ok (s2.orders.find? (fun o => o.id == input.id)), s2)
    else
      (.error (.invalidTransition existingOrder.status input.status), s)

/-! ## Claim-side definitions

Definitions in this section follow the wording of the specification, to be
compared with the handler embeddings above. -/

/-- Total quantity requested for product `pid` across all lines of the
input (the "quantity requested for it" of the creation claim, summed over
duplicate lines). -/
def requestedQty (input : CreateOrderInput) (pid : Nat) : Nat :=
  ((input.items.filter (fun item => item.product_id == pid)).map (fun item => item.quantity)).sum

/-- Sum of the line totals `quantity × unit_price` of the input, the
`total_value` the spec prescribes. -/
def totalOf (items : List OrderItemInput) : ℚ :=
  (items.map (fun item => (item.quantity : ℚ) * item.unit_price)).sum

/-- The `OrderItem` rows the spec prescribes for a validated request: one
row per input line, in input order, with consecutive serial ids starting at
`idStart`, `total_price = quantity × unit_price`. -/
def expectedOrderItems (orderId idStart now : Nat) : List OrderItemInput → List OrderItem
  | [] => []
  | item :: rest =>
    ⟨idStart, orderId, item.product_id, item.quantity, item.unit_price,
     (item.quantity : ℚ) * item.unit_price, now⟩ ::
    expectedOrderItems orderId (idStart + 1) now rest

/-- Total quantity carried by the order items of `l` that reference
product `pid` (the amount cancellation is expected to re-add to that
product's stock). -/
def itemsQty (l : List OrderItem) (pid : Nat) : Nat :=
  ((l.filter (fun item => item.product_id == pid)).map (fun item => item.quantity)).sum

/-- The first line-validation error the claim predicts: per line in input
order, the product reference must resolve to a product owned by the given
seller (else `ProductNotFoundForSeller`), the requested quantity must not
exceed the product's current stock (else `InsufficientStock`), and the
requested unit price must match the product's price within an absolute
tolerance of `0.01` (else `PriceMismatch`). -/
def claimedLineError (s : Store) (seller_id : Nat) :
    List OrderItemInput → Option CreateOrderError
  | [] => none
  | item :: rest =>
    match s.products.find? (fun p => p.id == item.product_id && p.seller_id == seller_id) with
    | none => some (.productNotFoundForSeller item.product_id)
    | some product =>
      if (item.quantity : Int) > product.stock_quantity then
        some (.insufficientStock item.product_id product.stock_quantity item.quantity)
      else if ¬ |item.unit_price - product.price| ≤ 1/100 then
        some (.priceMismatch item.product_id product.price item.unit_price)
      else claimedLineError s seller_id rest

/-- The error the claim predicts for a `createOrder` request: first the
customer reference must resolve to a user with role `customer`, then the
seller reference to a user with role `seller`, then the lines are checked
in input order by `claimedLineError`; `none` when every check passes. -/
def claimedFirstError (s : Store) (input : CreateOrderInput) : Option CreateOrderError :=
  if ¬ s.users.any (fun u => u.id == input.customer_id && u.role == UserRole.customer) then
    some .customerNotFound
  else if ¬ s.users.any (fun u => u.id == input.seller_id && u.role == UserRole.seller) then
    some .sellerNotFound
  else claimedLineError s input.seller_id input.items

/-! ## General lemmas -/

theorem beq_def {α : Type} [DecidableEq α] (a b : α) : (a == b) = decide (a = b) := rfl

theorem bne_def {α : Type} [DecidableEq α] (a b : α) : (a != b) = !decide (a = b) := rfl

/-- Mapping a row transformation that does not change a predicate commutes
with the first-match lookup. -/
theorem find?_map_of_pred_eq {α : Type} (f : α → α) (p : α → Bool)
    (h : ∀ a, p (f a) = p a) :
    ∀ l : List α, (l.map f).find? p = (l.find? p).map f := by
  intro l
  induction l with
  | nil => rfl
  | cons a l ih =>
    cases hpa : p a
    · rw [List.map_cons, List.find?_cons_of_neg _ (by simp [h a, hpa]),
        List.find?_cons_of_neg _ (by simp [hpa]), ih]
    · rw [List.map_cons, List.find?_cons_of_pos _ ((h a).trans hpa),
        List.find?_cons_of_pos _ hpa, Option.map_some']

/-- Effect of one SQL stock write
(`UPDATE products SET stock_quantity = v, updated_at = n WHERE id = pid0`)
on the observed stock of an arbitrary product id. -/
theorem stockOfP_write (ps : List Product) (pid0 pid : Nat) (v : Int) (n : Nat) :
    stockOfP (ps.map (fun p =>
        if p.id == pid0 then { p with stock_quantity := v, updated_at := n } else p)) pid =
      if pid0 = pid then (stockOfP ps pid).map (fun _ => v) else stockOfP ps pid := by
  have hpred : ∀ p : Product,
      (((if p.id == pid0 then { p with stock_quantity := v, updated_at := n } else p) : Product).id
          == pid) = (p.id == pid) := by
    intro p; cases h : p.id == pid0 <;> simp [h]
  unfold stockOfP
  rw [find?_map_of_pred_eq _ _ hpred]
  cases hf : ps.find? (fun p => p.id == pid) with
  | none => by_cases hpp : pid0 = pid <;> simp [hpp]
  | some a =>
    have ha : a.id = pid := by
      have := List.find?_some hf
      simpa [beq_def] using this
    by_cases hpp : pid0 = pid
    · subst hpp; simp [ha]
    · have hne : ¬ a.id = pid0 := by rw [ha]; exact fun hc => hpp hc.symm
      simp [hne, hpp]

/-- The restore loop touches only the products table. -/
theorem restoreItems_frame (now : Nat) :
    ∀ (l : List OrderItem) (s : Store),
      (restoreItems now l s).users = s.users ∧
      (restoreItems now l s).orders = s.orders ∧
      (restoreItems now l s).orderItems = s.orderItems ∧
      (restoreItems now l s).nextOrderId = s.nextOrderId ∧
      (restoreItems now l s).nextOrderItemId = s.nextOrderItemId := by
  intro l
  induction l with
  | nil => intro s; exact ⟨rfl, rfl, rfl, rfl, rfl⟩
  | cons item rest ih =>
    intro s
    unfold restoreItems
    cases hf : s.products.find? (fun p => p.id == item.product_id) with
    | none => exact ih s
    | some pr => exact ih _

theorem itemsQty_nil (pid : Nat) : itemsQty [] pid = 0 := rfl

theorem itemsQty_cons_pos (item : OrderItem) (rest : List OrderItem) (pid : Nat)
    (h : item.product_id = pid) :
    itemsQty (item :: rest) pid = item.quantity + itemsQty rest pid := by
  simp [itemsQty, List.filter_cons, beq_def, h]

theorem itemsQty_cons_neg (item : OrderItem) (rest : List OrderItem) (pid : Nat)
    (h : ¬ item.product_id = pid) :
    itemsQty (item :: rest) pid = itemsQty rest pid := by
  simp [itemsQty, List.filter_cons, beq_def, h]

/-- Net effect of the restore loop on the observed stock of every product
id: each product still present gains the summed quantity of the processed
items that reference it; items whose product row is missing are skipped
and change nothing. -/
theorem restoreItems_stockOf (now : Nat) :
    ∀ (l : List OrderItem) (s : Store) (pid : Nat),
      stockOf (restoreItems now l s) pid
        = (stockOf s pid).map (fun v => v + (itemsQty l pid : Int)) := by
  intro l
  induction l with
  | nil =>
    intro s pid
    cases h : stockOf s pid <;> simp [restoreItems, itemsQty_nil, h]
  | cons item rest ih =>
    intro s pid
    unfold restoreItems
    cases hf : s.products.find? (fun p => p.id == item.product_id) with
    | none =>
      rw [ih]
      by_cases hpid : item.product_id = pid
      · have hnone : stockOf s pid = none := by
          simp [stockOf, stockOfP, ← hpid, hf]
        simp [hnone]
      · rw [itemsQty_cons_neg _ _ _ hpid]
    | some pr =>
      rw [ih]
      have hw :
          stockOf ({ s with products := s.products.map (fun p =>
              if p.id == item.product_id then
                { p with stock_quantity := pr.stock_quantity + (item.quantity : Int),
                         updated_at := now }
              else p) } : Store) pid
            = if item.product_id = pid then
                (stockOf s pid).map (fun _ => pr.stock_quantity + (item.quantity : Int))
              else stockOf s pid := by
        simpa [stockOf] using
          stockOfP_write s.products item.product_id pid
            (pr.stock_quantity + (item.quantity : Int)) now
      rw [hw]
      by_cases hpid : item.product_id = pid
      · have hsome : stockOf s pid = some pr.stock_quantity := by
          simp [stockOf, stockOfP, ← hpid, hf]
        rw [itemsQty_cons_pos _ _ _ hpid]
        simp [hpid, hsome]
        ring
      · rw [itemsQty_cons_neg _ _ _ hpid]
        simp [hpid]

/-- The order-items rows inserted by the step-4 loop of `createOrder`, one
per validated line, with consecutive serial ids from `idStart`. -/
def builtItems (orderId now : Nat) : Nat → List ValidatedItem → List OrderItem
  | _, [] => []
  | idStart, vi :: rest =>
    ⟨idStart, orderId, vi.product_id, vi.quantity, vi.unit_price, vi.total_price, now⟩ ::
      builtItems orderId now (idStart + 1) rest

/-- The step-4 loop leaves users and orders untouched, appends exactly its
rows to the order-items table, and advances the item serial counter. -/
theorem insertItems_frame (orderId now : Nat) :
    ∀ (l : List ValidatedItem) (s : Store),
      (insertItemsAndUpdateStock orderId now l s).users = s.users ∧
      (insertItemsAndUpdateStock orderId now l s).orders = s.orders ∧
      (insertItemsAndUpdateStock orderId now l s).nextOrderId = s.nextOrderId ∧
      (insertItemsAndUpdateStock orderId now l s).orderItems
        = s.orderItems ++ builtItems orderId now s.nextOrderItemId l := by
  intro l
  induction l with
  | nil => intro s; simp [insertItemsAndUpdateStock, builtItems]
  | cons vi rest ih =>
    intro s
    unfold insertItemsAndUpdateStock
    refine ⟨(ih _).1, (ih _).2.1, (ih _).2.2.1, ?_⟩
    rw [(ih _).2.2.2]
    simp [builtItems]

/-- The store after one iteration of the step-4 loop of `createOrder`:
the item row inserted (serial counter advanced) and the product's stock
overwritten with the captured `current_stock - quantity`. -/
def stepStore (orderId now : Nat) (vi : ValidatedItem) (s : Store) : Store :=
  { users := s.users
    products := s.products.map (fun p =>
      if p.id == vi.product_id then
        { p with stock_quantity := vi.current_stock - (vi.quantity : Int), updated_at := now }
      else p)
    orders := s.orders
    orderItems := s.orderItems ++
      [⟨s.nextOrderItemId, orderId, vi.product_id, vi.quantity,
        vi.unit_price, vi.total_price, now⟩]
    nextOrderId := s.nextOrderId
    nextOrderItemId := s.nextOrderItemId + 1 }

theorem insertItems_cons (orderId now : Nat) (vi : ValidatedItem)
    (rest : List ValidatedItem) (s : Store) :
    insertItemsAndUpdateStock orderId now (vi :: rest) s
      = insertItemsAndUpdateStock orderId now rest (stepStore orderId now vi s) := rfl

theorem stepStore_stockOf (orderId now : Nat) (vi : ValidatedItem) (s : Store) (pid : Nat) :
    stockOf (stepStore orderId now vi s) pid
      = if vi.product_id = pid then
          (stockOf s pid).map (fun _ => vi.current_stock - (vi.quantity : Int))
        else stockOf s pid :=
  stockOfP_write s.products vi.product_id pid _ now

/-- Net effect of the step-4 loop on the observed stock of every product
id, for a line list whose product ids are pairwise distinct: a product
referenced by some line ends at that line's captured
`current_stock - quantity`; every other product keeps its stock. -/
theorem insertItems_stockOf (orderId now : Nat) :
    ∀ (l : List ValidatedItem) (s : Store) (pid : Nat),
      (l.map (fun vi => vi.product_id)).Nodup →
      stockOf (insertItemsAndUpdateStock orderId now l s) pid
        = match l.find? (fun vi => vi.product_id == pid) with
          | some vi => (stockOf s pid).map (fun _ => vi.current_stock - (vi.quantity : Int))
          | none => stockOf s pid := by
  intro l
  induction l with
  | nil => intro s pid _; simp [insertItemsAndUpdateStock, List.find?]
  | cons vi rest ih =>
    intro s pid hnd
    have hnd' : (rest.map (fun vi => vi.product_id)).Nodup := (List.nodup_cons.mp hnd).2
    have hni : vi.product_id ∉ rest.map (fun vi => vi.product_id) := (List.nodup_cons.mp hnd).1
    rw [insertItems_cons, ih _ pid hnd']
    by_cases hpid : vi.product_id = pid
    · have hrest : rest.find? (fun vi => vi.product_id == pid) = none := by
        rw [List.find?_eq_none]
        intro x hx hcontra
        exact hni (by
          rw [hpid]
          exact List.mem_map.mpr ⟨x, hx, by simpa [beq_def] using hcontra⟩)
      rw [List.find?_cons_of_pos _ (by simp [beq_def, hpid]), hrest,
        stepStore_stockOf, if_pos hpid]
    · rw [List.find?_cons_of_neg _ (by simp [beq_def, hpid])]
      cases hrest : rest.find? (fun vi => vi.product_id == pid) with
      | none => rw [stepStore_stockOf, if_neg hpid]
      | some vi' => rw [stepStore_stockOf, if_neg hpid]

/-- The step-4 loop writes only non-negative stock values when every
validated line's quantity is bounded by its captured stock, so it preserves
non-negativity of the whole products table. -/
theorem insertItems_nonneg (orderId now : Nat) :
    ∀ (l : List ValidatedItem) (s : Store),
      (∀ p ∈ s.products, 0 ≤ p.stock_quantity) →
      (∀ vi ∈ l, (vi.quantity : Int) ≤ vi.current_stock) →
      ∀ p ∈ (insertItemsAndUpdateStock orderId now l s).products, 0 ≤ p.stock_quantity := by
  intro l
  induction l with
  | nil => intro s hs _; simpa [insertItemsAndUpdateStock] using hs
  | cons vi rest ih =>
    intro s hs hq
    unfold insertItemsAndUpdateStock
    refine ih _ ?_ (fun vi' hvi' => hq vi' (List.mem_cons_of_mem _ hvi'))
    intro p hp
    rcases List.mem_map.mp hp with ⟨p0, hp0, hfp⟩
    by_cases hid : p0.id = vi.product_id
    · have hvi := hq vi (List.mem_cons_self _ _)
      rw [← hfp]
      simp only [beq_def, hid, decide_True, if_true]
      omega
    · rw [← hfp]
      simp only [beq_def, hid, decide_False, if_false]
      exact hs p0 hp0

theorem totalOf_nil : totalOf [] = 0 := rfl

theorem totalOf_cons (item : OrderItemInput) (rest : List OrderItemInput) :
    totalOf (item :: rest) = (item.quantity : ℚ) * item.unit_price + totalOf rest := by
  simp [totalOf]

/-- Relation between an input line and the validated entry the validation
loop produced for it: the line is copied, the line total is
quantity × unit price, and the captured stock comes from the product row
found for the line's id and the order's seller, which the line's quantity
does not exceed. -/
def LineOk (s : Store) (sid : Nat) (item : OrderItemInput) (vi : ValidatedItem) : Prop :=
  vi.product_id = item.product_id ∧ vi.quantity = item.quantity ∧
  vi.unit_price = item.unit_price ∧
  vi.total_price = (item.quantity : ℚ) * item.unit_price ∧
  ∃ pr, s.products.find? (fun p => p.id == item.product_id && p.seller_id == sid) = some pr ∧
    vi.current_stock = pr.stock_quantity ∧ (item.quantity : Int) ≤ pr.stock_quantity

theorem validateItems_ok_total (s : Store) (sid : Nat) :
    ∀ (items : List OrderItemInput) (vis : List ValidatedItem) (t : ℚ),
      validateItems s sid items = .ok (vis, t) → t = totalOf items := by
  intro items
  induction items with
  | nil =>
    intro vis t h
    simp only [validateItems, Except.ok.injEq, Prod.mk.injEq] at h
    rw [← h.2, totalOf_nil]
  | cons item rest ih =>
    intro vis t h
    rw [validateItems] at h
    split at h
    · exact absurd h (by simp)
    · split at h
      · exact absurd h (by simp)
      · split at h
        · exact absurd h (by simp)
        · split at h
          · exact absurd h (by simp)
          · rename_i vis0 t0 heq
            simp only [Except.ok.injEq, Prod.mk.injEq] at h
            rw [← h.2, totalOf_cons, ih vis0 t0 heq]

theorem validateItems_ok_items (s : Store) (sid : Nat) :
    ∀ (items : List OrderItemInput) (vis : List ValidatedItem) (t : ℚ),
      validateItems s sid items = .ok (vis, t) →
      List.Forall₂ (LineOk s sid) items vis := by
  intro items
  induction items with
  | nil =>
    intro vis t h
    simp only [validateItems, Except.ok.injEq, Prod.mk.injEq] at h
    rw [← h.1]
    exact List.Forall₂.nil
  | cons item rest ih =>
    intro vis t h
    rw [validateItems] at h
    split at h
    · exact absurd h (by simp)
    · rename_i product hf
      split at h
      · exact absurd h (by simp)
      · rename_i hstock
        split at h
        · exact absurd h (by simp)
        · rename_i hprice
          split at h
          · exact absurd h (by simp)
          · rename_i vis0 t0 heq
            simp only [Except.ok.injEq, Prod.mk.injEq] at h
            rw [← h.1]
            refine List.Forall₂.cons ?_ (ih vis0 t0 heq)
            exact ⟨rfl, rfl, rfl, rfl, product, hf, rfl, not_lt.mp hstock⟩

theorem forall₂_map_pid (s : Store) (sid : Nat) :
    ∀ {items : List OrderItemInput} {vis : List ValidatedItem},
      List.Forall₂ (LineOk s sid) items vis →
      vis.map (fun vi => vi.product_id) = items.map (fun it => it.product_id) := by
  intro items vis h
  induction h with
  | nil => rfl
  | cons hab _ ih => simp [ih, hab.1]

/-- First-match lookups on pointwise-related lists, under predicates that
agree across the relation, either both miss or both hit related elements. -/
theorem forall₂_find?_cases {α β : Type} {R : α → β → Prop} {p : α → Bool} {q : β → Bool}
    (hpq : ∀ a b, R a b → p a = q b) :
    ∀ {l1 : List α} {l2 : List β}, List.Forall₂ R l1 l2 →
      (l1.find? p = none ∧ l2.find? q = none) ∨
      (∃ a b, l1.find? p = some a ∧ l2.find? q = some b ∧ R a b) := by
  intro l1 l2 h
  induction h with
  | nil => exact Or.inl ⟨rfl, rfl⟩
  | cons hab ht ih =>
    rename_i a b l1' l2'
    cases hpa : p a
    · rw [List.find?_cons_of_neg _ (by simp [hpa]),
        List.find?_cons_of_neg _ (by simp [← hpq a b hab, hpa])]
      exact ih
    · rw [List.find?_cons_of_pos _ (by exact hpa),
        List.find?_cons_of_pos _ (by simp [← hpq a b hab, hpa])]
      exact Or.inr ⟨a, b, rfl, rfl, hab⟩

theorem builtItems_eq_expected (orderId now : Nat) (s : Store) (sid : Nat) :
    ∀ {items : List OrderItemInput} {vis : List ValidatedItem},
      List.Forall₂ (LineOk s sid) items vis →
      ∀ idStart, builtItems orderId now idStart vis
        = expectedOrderItems orderId idStart now items := by
  intro items vis h
  induction h with
  | nil => intro idStart; rfl
  | cons hab _ ih =>
    intro idStart
    simp only [builtItems, expectedOrderItems, List.cons.injEq]
    exact ⟨by simp [hab.1, hab.2.1, hab.2.2.1, hab.2.2.2.1], ih (idStart + 1)⟩

/-- With pairwise-distinct product ids (the primary-key invariant of the
products table), the row found by id and seller is the row found by id
alone. -/
theorem find?_by_id_of_find?_seller :
    ∀ (ps : List Product) (pid sid : Nat) (pr : Product),
      (ps.map (fun p => p.id)).Nodup →
      ps.find? (fun p => p.id == pid && p.seller_id == sid) = some pr →
      ps.find? (fun p => p.id == pid) = some pr := by
  intro ps
  induction ps with
  | nil => intro pid sid pr _ h; simp [List.find?] at h
  | cons a l ih =>
    intro pid sid pr hnd h
    have hnd' : (l.map (fun p => p.id)).Nodup := (List.nodup_cons.mp hnd).2
    have hna : a.id ∉ l.map (fun p => p.id) := (List.nodup_cons.mp hnd).1
    cases ha : (a.id == pid)
    · rw [List.find?_cons_of_neg _ (by simp [ha])] at h
      rw [List.find?_cons_of_neg _ (by simp [ha])]
      exact ih pid sid pr hnd' h
    · have haid : a.id = pid := by simpa [beq_def] using ha
      rw [List.find?_cons_of_pos _ (by exact ha)]
      cases hsa : (a.seller_id == sid)
      · rw [List.find?_cons_of_neg _ (by simp [ha, hsa])] at h
        have hmem := List.mem_of_find?_eq_some h
        have hpr : pr.id = pid := by
          have := List.find?_some h
          simp only [Bool.and_eq_true, beq_iff_eq] at this
          exact this.1
        exact absurd (List.mem_map.mpr ⟨pr, hmem, hpr.trans haid.symm⟩) hna
      · rw [List.find?_cons_of_pos _ (by simp [ha, hsa])] at h
        exact h

/-- Line-by-line agreement of the claimed first validation error with the
validation loop of the handler. -/
theorem claimedLineError_eq (s : Store) (sid : Nat) :
    ∀ items, claimedLineError s sid items
      = match validateItems s sid items with
        | .error e => some e
        | .ok _ => none := by
  intro items
  induction items with
  | nil => simp [claimedLineError, validateItems]
  | cons item rest ih =>
    rw [claimedLineError, validateItems]
    cases hf : s.products.find? (fun p => p.id == item.product_id && p.seller_id == sid) with
    | none => simp
    | some product =>
      simp only
      by_cases h1 : product.stock_quantity < (item.quantity : Int)
      · rw [if_pos (by exact h1), if_pos h1]
      · rw [if_neg (by exact h1), if_neg h1]
        by_cases h2 : |item.unit_price - product.price| > 1/100
        · rw [if_pos (by exact not_le.mpr h2), if_pos h2]
        · rw [if_neg (by exact fun hc => h2 (not_le.mp hc)), if_neg h2, ih]
          cases hv : validateItems s sid rest with
          | error e => simp
          | ok p => simp

/-- Every validated entry's quantity is bounded by its captured stock. -/
theorem lineOk_right (s : Store) (sid : Nat) :
    ∀ {items : List OrderItemInput} {vis : List ValidatedItem},
      List.Forall₂ (LineOk s sid) items vis →
      ∀ vi ∈ vis, (vi.quantity : Int) ≤ vi.current_stock := by
  intro items vis h
  induction h with
  | nil => intro vi hvi; exact absurd hvi (List.not_mem_nil _)
  | cons hab _ ih =>
    intro vi hvi
    rcases List.mem_cons.mp hvi with hvi | hvi
    · subst hvi
      rcases hab with ⟨_, hq, _, _, pr, _, hcs, hle⟩
      rw [hq, hcs]
      exact hle
    · exact ih vi hvi

/-- The restore loop writes only values of the form
(existing stock) + (item quantity), so it preserves non-negativity of the
products table. -/
theorem restoreItems_nonneg (now : Nat) :
    ∀ (l : List OrderItem) (s : Store),
      (∀ p ∈ s.products, 0 ≤ p.stock_quantity) →
      ∀ p ∈ (restoreItems now l s).products, 0 ≤ p.stock_quantity := by
  intro l
  induction l with
  | nil => intro s hs; simpa [restoreItems] using hs
  | cons item rest ih =>
    intro s hs
    unfold restoreItems
    cases hf : s.products.find? (fun p => p.id == item.product_id) with
    | none => exact ih s hs
    | some pr =>
      refine ih _ ?_
      intro p hp
      rcases List.mem_map.mp hp with ⟨p0, hp0, hfp⟩
      have hpr : 0 ≤ pr.stock_quantity := hs pr (List.mem_of_find?_eq_some hf)
      by_cases hid : p0.id = item.product_id
      · rw [← hfp]
        simp only [beq_def, hid, decide_True, if_true]
        positivity
      · rw [← hfp]
        simp only [beq_def, hid, decide_False, if_false]
        exact hs p0 hp0

/-- After the status write, a lookup of the order id still hits a row. -/
theorem orders_write_find?_isSome (l : List Order) (oid : Nat) (st : OrderStatus) (n : Nat)
    (o : Order) (ho : o ∈ l) (hid : o.id = oid) :
    ∃ o2, (l.map (fun o3 =>
        if o3.id == oid then { o3 with status := st, updated_at := n } else o3)).find?
      (fun o3 => o3.id == oid) = some o2 := by
  rw [← Option.isSome_iff_exists]
  rw [List.find?_isSome]
  refine ⟨(if o.id == oid then { o with status := st, updated_at := n } else o : Order),
    List.mem_map_of_mem _ ho, ?_⟩
  cases h : (o.id == oid) <;> simp [h, beq_def, hid]

/-- The fault-injecting embedding with no fault injected is exactly the
plain handler. -/
theorem updateOrderStatusFaulty_no_fault (s : Store) (input : UpdateOrderStatusInput)
    (now : Nat) :
    updateOrderStatusFaulty s input now false = updateOrderStatus s input now := by
  cases hfind : s.orders.find? (fun o => o.id == input.id && o.seller_id == input.seller_id) with
  | none => simp [updateOrderStatusFaulty, updateOrderStatus, hfind]
  | some existingOrder =>
    by_cases h : input.status ∈ VALID_STATUS_TRANSITIONS existingOrder.status
    · simp [updateOrderStatusFaulty, updateOrderStatus, hfind, h]
    · simp [updateOrderStatusFaulty, updateOrderStatus, hfind, h]

/-- The first error the transaction body of `createOrder` reports is the
error the claim predicts. -/
theorem claimedFirstError_matches (s : Store) (input : CreateOrderInput) (now : Nat) :
    claimedFirstError s input
      = match createOrderTx s input now with
        | .error e => some e
        | .ok _ => none := by
  unfold claimedFirstError createOrderTx
  cases hc : s.users.find? (fun u => u.id == input.customer_id && u.role == UserRole.customer) with
  | none =>
    have hany : ¬ s.users.any (fun u => u.id == input.customer_id && u.role == UserRole.customer)
        = true := by
      rw [List.any_eq_true]
      rintro ⟨x, hx, hpx⟩
      exact absurd hpx (by simpa using List.find?_eq_none.mp hc x hx)
    rw [if_pos hany]
  | some uc =>
    have hany : s.users.any (fun u => u.id == input.customer_id && u.role == UserRole.customer)
        = true := by
      rw [List.any_eq_true]
      exact ⟨uc, List.mem_of_find?_eq_some hc, by simpa using List.find?_some hc⟩
    rw [if_neg (by rw [hany]; exact fun hcon => hcon rfl)]
    cases hsl : s.users.find? (fun u => u.id == input.seller_id && u.role == UserRole.seller) with
    | none =>
      have hany2 : ¬ s.users.any (fun u => u.id == input.seller_id && u.role == UserRole.seller)
          = true := by
        rw [List.any_eq_true]
        rintro ⟨x, hx, hpx⟩
        exact absurd hpx (by simpa using List.find?_eq_none.mp hsl x hx)
      rw [if_pos hany2]
    | some us =>
      have hany2 : s.users.any (fun u => u.id == input.seller_id && u.role == UserRole.seller)
          = true := by
        rw [List.any_eq_true]
        exact ⟨us, List.mem_of_find?_eq_some hsl, by simpa using List.find?_some hsl⟩
      rw [if_neg (by rw [hany2]; exact fun hcon => hcon rfl)]
      rw [claimedLineError_eq s input.seller_id input.items]
      cases hv : validateItems s input.seller_id input.items with
      | error e => simp
      | ok p => simp

/-- The store `updateOrderStatus` leaves behind after a successful
transition into cancelled: stock restored, then the status write applied
to every order row carrying the requested id. -/
def cancelledStore (input : UpdateOrderStatusInput) (now : Nat) (s : Store) : Store :=
  let s1 := restoreStockQuantities input.id now s
  { s1 with orders := s1.orders.map (fun o2 =>
      if o2.id == input.id then { o2 with status := input.status, updated_at := now }
      else o2) }

theorem updateOrderStatus_found_invalid (s : Store) (input : UpdateOrderStatusInput)
    (now : Nat) (o : Order)
    (hfind : s.orders.find? (fun o2 => o2.id == input.id && o2.seller_id == input.seller_id)
      = some o)
    (hmem : input.status ∉ VALID_STATUS_TRANSITIONS o.status) :
    updateOrderStatus s input now
      = (.error (.invalidTransition o.status input.status), s) := by
  simp only [updateOrderStatus, hfind, if_neg hmem]

theorem updateOrderStatus_noncancel_eq (s : Store) (input : UpdateOrderStatusInput)
    (now : Nat) (o : Order)
    (hfind : s.orders.find? (fun o2 => o2.id == input.id && o2.seller_id == input.seller_id)
      = some o)
    (hmem : input.status ∈ VALID_STATUS_TRANSITIONS o.status)
    (hnc : input.status ≠ OrderStatus.cancelled) :
    updateOrderStatus s input now
      = (.ok ((s.orders.map (fun o2 =>
            if o2.id == input.id then { o2 with status := input.status, updated_at := now }
            else o2)).find? (fun o2 => o2.id == input.id)),
         { s with orders := s.orders.map (fun o2 =>
            if o2.id == input.id then { o2 with status := input.status, updated_at := now }
            else o2) }) := by
  have hcond : (input.status == OrderStatus.cancelled && o.status != OrderStatus.cancelled)
      = false := by
    simp [beq_def, hnc]
  simp only [updateOrderStatus, hfind, if_pos hmem, hcond, Bool.false_eq_true, if_false]

theorem updateOrderStatus_cancel_eq (s : Store) (input : UpdateOrderStatusInput)
    (now : Nat) (o : Order)
    (hfind : s.orders.find? (fun o2 => o2.id == input.id && o2.seller_id == input.seller_id)
      = some o)
    (htarget : input.status = OrderStatus.cancelled)
    (hallow : OrderStatus.cancelled ∈ VALID_STATUS_TRANSITIONS o.status) :
    updateOrderStatus s input now
      = (.ok ((cancelledStore input now s).orders.find? (fun o2 => o2.id == input.id)),
         cancelledStore input now s) := by
  have hnc : o.status ≠ OrderStatus.cancelled := by
    intro hc
    rw [hc] at hallow
    simp [VALID_STATUS_TRANSITIONS] at hallow
  have hmem : input.status ∈ VALID_STATUS_TRANSITIONS o.status := htarget ▸ hallow
  have hcond : (input.status == OrderStatus.cancelled && o.status != OrderStatus.cancelled)
      = true := by
    simp [beq_def, bne_def, htarget, hnc]
  simp only [updateOrderStatus, hfind, if_pos hmem, hcond, if_true, cancelledStore]

/-! ## Concrete fixtures (used by witnesses and counterexamples) -/

/-- A customer user row. -/
def sampleCustomer : User :=
  ⟨1, "customer@example.com", "Test Customer", "0901234567",
   some "123 Customer Street", .customer, 0, 0⟩

/-- A seller user row. -/
def sampleSeller : User :=
  ⟨2, "seller@example.com", "Test Seller", "0909876543",
   some "456 Seller Street", .seller, 0, 0⟩

/-- A product of the sample seller: price 25, stock 100. -/
def beefProduct : Product :=
  ⟨10, "Fresh Beef", "High quality beef", 25, .meat, "Dong Thap", 100, .kg, [], 2, 0, 0⟩

/-- A product of the sample seller: price 15, stock 50. -/
def chickenProduct : Product :=
  ⟨20, "Organic Chicken", "Free range chicken", 15, .poultry, "Long An", 50, .kg, [], 2, 0, 0⟩

/-- A store with one customer, one seller and two products, no orders. -/
def baseStore : Store :=
  ⟨[sampleCustomer, sampleSeller], [beefProduct, chickenProduct], [], [], 100, 500⟩

/-- A valid order request: 5 × 25 of product 10 and 2 × 15 of product 20. -/
def goodInput : CreateOrderInput :=
  ⟨1, 2, .cod, "789 Delivery Road", none, [⟨10, 5, 25⟩, ⟨20, 2, 15⟩]⟩

/-- The order `createOrder baseStore goodInput 7` persists. -/
def goodOrder : Order :=
  ⟨100, 1, 2, 155, .pending_confirmation, .cod, "789 Delivery Road", none, 7, 7⟩

/-- A request whose customer reference resolves to no user. -/
def badCustomerInput : CreateOrderInput :=
  ⟨99, 2, .cod, "789 Delivery Road", none, [⟨10, 5, 25⟩]⟩

/-- A product with stock 10 used by the duplicate-line request. -/
def eggProduct : Product :=
  ⟨1, "Fresh Eggs", "Farm eggs", 2, .eggs_dairy, "Local", 10, .piece, [], 2, 0, 0⟩

/-- A store holding only the product of the duplicate-line request. -/
def dupStore : Store :=
  ⟨[sampleCustomer, sampleSeller], [eggProduct], [], [], 100, 500⟩

/-- A request listing the same product in two lines (quantities 3 and 4). -/
def dupInput : CreateOrderInput :=
  ⟨1, 2, .cod, "789 Delivery Road", none, [⟨1, 3, 2⟩, ⟨1, 4, 2⟩]⟩

/-- The store after `createOrder baseStore goodInput 7`, written out: the
order of `goodOrder`, its two item rows, and the decremented stocks. -/
def orderedStore : Store :=
  ⟨[sampleCustomer, sampleSeller],
   [⟨10, "Fresh Beef", "High quality beef", 25, .meat, "Dong Thap", 95, .kg, [], 2, 0, 7⟩,
    ⟨20, "Organic Chicken", "Free range chicken", 15, .poultry, "Long An", 48, .kg, [], 2, 0, 7⟩],
   [goodOrder],
   [⟨500, 100, 10, 5, 25, 125, 7⟩, ⟨501, 100, 20, 2, 15, 30, 7⟩],
   101, 502⟩

/-- Request to cancel order 100, issued by its seller. -/
def cancelInput : UpdateOrderStatusInput := ⟨100, .cancelled, 2⟩

/-- Request to confirm order 100, issued by its seller. -/
def confirmInput : UpdateOrderStatusInput := ⟨100, .confirmed, 2⟩

/-- Request to jump order 100 straight to delivered (invalid from
pending_confirmation). -/
def deliveredInput : UpdateOrderStatusInput := ⟨100, .delivered, 2⟩

/-- Status update for order 100 issued by a seller who does not own it. -/
def wrongSellerInput : UpdateOrderStatusInput := ⟨100, .confirmed, 3⟩

/-- Status update for an order id that resolves to no row. -/
def missingOrderInput : UpdateOrderStatusInput := ⟨999, .confirmed, 2⟩

/-- Like `orderedStore`, but the second item row references product id 999,
which has no row in the products table. -/
def missingProductStore : Store :=
  ⟨[sampleCustomer, sampleSeller],
   [⟨10, "Fresh Beef", "High quality beef", 25, .meat, "Dong Thap", 95, .kg, [], 2, 0, 7⟩],
   [goodOrder],
   [⟨500, 100, 10, 5, 25, 125, 7⟩, ⟨501, 100, 999, 4, 15, 60, 7⟩],
   101, 502⟩

theorem cancelledStore_orders (input : UpdateOrderStatusInput) (now : Nat) (s : Store) :
    (cancelledStore input now s).orders
      = s.orders.map (fun o2 =>
          if o2.id == input.id then { o2 with status := input.status, updated_at := now }
          else o2) := by
  show (restoreStockQuantities input.id now s).orders.map _ = _
  rw [show (restoreStockQuantities input.id now s).orders = s.orders from
    (restoreItems_frame now _ s).2.1]

/-- A found order with an allowed target always yields a non-null result:
the status write hits the row and the updated row is returned. -/
theorem updateOrderStatus_valid_succeeds (s : Store) (input : UpdateOrderStatusInput)
    (now : Nat) (o : Order)
    (hfind : s.orders.find? (fun o2 => o2.id == input.id && o2.seller_id == input.seller_id)
      = some o)
    (hmem : input.status ∈ VALID_STATUS_TRANSITIONS o.status) :
    ∃ o2, (updateOrderStatus s input now).1 = .ok (some o2) := by
  have ho_mem : o ∈ s.orders := List.mem_of_find?_eq_some hfind
  have ho_id : o.id = input.id := by
    have h := List.find?_some hfind
    simp only [Bool.and_eq_true, beq_iff_eq] at h
    exact h.1
  obtain ⟨o2, ho2⟩ :=
    orders_write_find?_isSome s.orders input.id input.status now o ho_mem ho_id
  by_cases htarget : input.status = OrderStatus.cancelled
  · have hallow : OrderStatus.cancelled ∈ VALID_STATUS_TRANSITIONS o.status := htarget ▸ hmem
    rw [updateOrderStatus_cancel_eq s input now o hfind htarget hallow]
    exact ⟨o2, by rw [show ((.ok ((cancelledStore input now s).orders.find?
      (fun o2 => o2.id == input.id)), cancelledStore input now s) :
        Except UpdateOrderError (Option Order) × Store).1
      = .ok ((cancelledStore input now s).orders.find? (fun o2 => o2.id == input.id)) from rfl,
      cancelledStore_orders, ho2]⟩
  · rw [updateOrderStatus_noncancel_eq s input now o hfind hmem htarget]
    exact ⟨o2, by rw [show ((.ok ((s.orders.map (fun o2 =>
        if o2.id == input.id then { o2 with status := input.status, updated_at := now }
        else o2)).find? (fun o2 => o2.id == input.id)),
        ({ s with orders := s.orders.map (fun o2 =>
          if o2.id == input.id then { o2 with status := input.status, updated_at := now }
          else o2) } : Store)) :
        Except UpdateOrderError (Option Order) × Store).1
      = .ok ((s.orders.map (fun o2 =>
          if o2.id == input.id then { o2 with status := input.status, updated_at := now }
          else o2)).find? (fun o2 => o2.id == input.id)) from rfl, ho2]⟩

/-- Decomposition of a successful transaction body of `createOrder`: the
validation loop succeeded, the returned order is the inserted row, and the
final store is the step-4 loop run after the order insert. -/
theorem createOrderTx_ok (s : Store) (input : CreateOrderInput) (now : Nat)
    (o : Order) (s2 : Store)
    (h : createOrderTx s input now = .ok (o, s2)) :
    ∃ vis total,
      validateItems s input.seller_id input.items = .ok (vis, total) ∧
      o = { id := s.nextOrderId, customer_id := input.customer_id,
            seller_id := input.seller_id, total_value := total,
            status := .pending_confirmation, payment_method := input.payment_method,
            delivery_address := input.delivery_address,
            customer_notes := input.customer_notes, created_at := now, updated_at := now } ∧
      s2 = insertItemsAndUpdateStock s.nextOrderId now vis
            { s with orders := s.orders ++ [o], nextOrderId := s.nextOrderId + 1 } := by
  rw [createOrderTx] at h
  split at h
  · exact absurd h (by simp)
  · split at h
    · exact absurd h (by simp)
    · split at h
      · exact absurd h (by simp)
      · rename_i vis total heq
        simp only [Except.ok.injEq, Prod.mk.injEq] at h
        refine ⟨vis, total, heq, h.1.symm, ?_⟩
        rw [← h.2, ← h.1]

/-! ## Claims -/

/-- C1: whenever `createOrder` fails (any validation error), the whole
request was one atomic transaction that rolled back, so the resulting
store — every Order, OrderItem and Product row — equals the pre-request
store. -/
theorem createOrder_validation_failure_rolls_back (s : Store) (input : CreateOrderInput)
    (now : Nat) (e : CreateOrderError)
    (h : (createOrder s input now).1 = .error e) :
    (createOrder s input now).2 = s := by
  cases htx : createOrderTx s input now with
  | ok p =>
    obtain ⟨o, s2⟩ := p
    simp [createOrder, htx] at h
  | error e2 => simp [createOrder, htx]

/-- Witness for C1 at a request whose customer reference is dangling. -/
theorem createOrder_validation_failure_rolls_back_witness :
    (createOrder baseStore badCustomerInput 7).2 = baseStore :=
  createOrder_validation_failure_rolls_back baseStore badCustomerInput 7 .customerNotFound
    (by norm_num [createOrder, createOrderTx, validateItems, List.find?, beq_def,
      baseStore, badCustomerInput, sampleCustomer, sampleSeller, beefProduct, chickenProduct])

/-- C3: `createOrder` validates in the fixed order customer, seller, then
per line (in input order) ownership, stock, price, and fails with exactly
the error kind of the first violated check; `claimedFirstError` spells the
claimed order out with its boundary conditions (quantity may equal the
stock; a price difference of exactly 0.01 is accepted). -/
theorem createOrder_first_error_spec (s : Store) (input : CreateOrderInput) (now : Nat)
    (e : CreateOrderError) :
    (createOrder s input now).1 = .error e ↔ claimedFirstError s input = some e := by
  rw [claimedFirstError_matches s input now]
  cases htx : createOrderTx s input now with
  | ok p =>
    obtain ⟨o, s2⟩ := p
    simp [createOrder, htx]
  | error e2 => simp [createOrder, htx]

/-- C6: when the order id misses or the order belongs to another seller,
`updateOrderStatus` returns null (embedded `.ok none`), raises no error,
and mutates nothing. -/
theorem updateOrderStatus_unauthorized_returns_null (s : Store)
    (input : UpdateOrderStatusInput) (now : Nat)
    (h : ∀ o ∈ s.orders, o.id = input.id → o.seller_id ≠ input.seller_id) :
    updateOrderStatus s input now = (.ok none, s) := by
  have hfind : s.orders.find? (fun o => o.id == input.id && o.seller_id == input.seller_id)
      = none := by
    rw [List.find?_eq_none]
    intro x hx hc
    simp only [Bool.and_eq_true, beq_iff_eq] at hc
    exact h x hx hc.1 hc.2
  simp only [updateOrderStatus, hfind]

/-- Witness for C6: a foreign seller and a dangling order id both get
null with the store unchanged. -/
theorem updateOrderStatus_unauthorized_returns_null_witness :
    updateOrderStatus orderedStore wrongSellerInput 9 = (.ok none, orderedStore) ∧
    updateOrderStatus orderedStore missingOrderInput 9 = (.ok none, orderedStore) :=
  ⟨updateOrderStatus_unauthorized_returns_null orderedStore wrongSellerInput 9 (by decide),
   updateOrderStatus_unauthorized_returns_null orderedStore missingOrderInput 9 (by decide)⟩

/-- C4: for an order of the acting seller, `updateOrderStatus` succeeds
exactly when the target is in the transition-table entry of the order's
current status; otherwise it fails with `InvalidTransition` naming the
current and requested status and the store (hence the order's status) is
unchanged. -/
theorem updateOrderStatus_transition_table_spec (s : Store)
    (input : UpdateOrderStatusInput) (now : Nat) (o : Order)
    (hfind : s.orders.find? (fun o2 => o2.id == input.id && o2.seller_id == input.seller_id)
      = some o) :
    ((∃ o2, (updateOrderStatus s input now).1 = .ok (some o2)) ↔
      input.status ∈ VALID_STATUS_TRANSITIONS o.status) ∧
    (input.status ∉ VALID_STATUS_TRANSITIONS o.status →
      updateOrderStatus s input now
        = (.error (.invalidTransition o.status input.status), s)) := by
  by_cases hmem : input.status ∈ VALID_STATUS_TRANSITIONS o.status
  · exact ⟨iff_of_true (updateOrderStatus_valid_succeeds s input now o hfind hmem) hmem,
      fun hn => absurd hmem hn⟩
  · refine ⟨iff_of_false ?_ hmem,
      fun _ => updateOrderStatus_found_invalid s input now o hfind hmem⟩
    rintro ⟨o2, ho2⟩
    rw [updateOrderStatus_found_invalid s input now o hfind hmem] at ho2
    exact absurd ho2 (by simp)

/-- Witness for C4: confirming a pending order succeeds; jumping it to
delivered is rejected with both statuses named and the store unchanged. -/
theorem updateOrderStatus_transition_table_spec_witness :
    (∃ o2, (updateOrderStatus orderedStore confirmInput 9).1 = .ok (some o2)) ∧
    updateOrderStatus orderedStore deliveredInput 9
      = (.error (.invalidTransition .pending_confirmation .delivered), orderedStore) :=
  ⟨(updateOrderStatus_transition_table_spec orderedStore confirmInput 9 goodOrder
      (by decide)).1.mpr (by decide),
   (updateOrderStatus_transition_table_spec orderedStore deliveredInput 9 goodOrder
      (by decide)).2 (by decide)⟩

/-- C5: a genuine transition into cancelled succeeds, re-increments every
product of the store by the summed quantity of the order's items that
reference it, and a second cancellation attempt on the resulting store is
rejected (cancelled has no outgoing transitions) and changes nothing, so
double restoration cannot occur. -/
theorem updateOrderStatus_cancel_restores_stock (s : Store)
    (input : UpdateOrderStatusInput) (now now2 : Nat) (o : Order)
    (hfind : s.orders.find? (fun o2 => o2.id == input.id && o2.seller_id == input.seller_id)
      = some o)
    (htarget : input.status = OrderStatus.cancelled)
    (hallow : OrderStatus.cancelled ∈ VALID_STATUS_TRANSITIONS o.status) :
    (∃ o2, (updateOrderStatus s input now).1 = .ok (some o2)) ∧
    (∀ pid, stockOf (updateOrderStatus s input now).2 pid
        = (stockOf s pid).map (fun v =>
            v + (itemsQty (s.orderItems.filter (fun it => it.order_id == input.id)) pid : Int))) ∧
    updateOrderStatus (updateOrderStatus s input now).2 input now2
      = (.error (.invalidTransition OrderStatus.cancelled OrderStatus.cancelled),
         (updateOrderStatus s input now).2) := by
  have hmem : input.status ∈ VALID_STATUS_TRANSITIONS o.status := htarget ▸ hallow
  have heq := updateOrderStatus_cancel_eq s input now o hfind htarget hallow
  have ho_id : o.id = input.id := by
    have h := List.find?_some hfind
    simp only [Bool.and_eq_true, beq_iff_eq] at h
    exact h.1
  have h2 : (updateOrderStatus s input now).2 = cancelledStore input now s := by rw [heq]
  refine ⟨updateOrderStatus_valid_succeeds s input now o hfind hmem, ?_, ?_⟩
  · intro pid
    rw [h2]
    exact restoreItems_stockOf now
      (s.orderItems.filter (fun it => it.order_id == input.id)) s pid
  · rw [h2]
    have hford : (cancelledStore input now s).orders.find?
        (fun o2 => o2.id == input.id && o2.seller_id == input.seller_id)
        = some { o with status := input.status, updated_at := now } := by
      rw [cancelledStore_orders,
        find?_map_of_pred_eq (fun a : Order =>
            if a.id == input.id then { a with status := input.status, updated_at := now }
            else a)
          (fun o2 => o2.id == input.id && o2.seller_id == input.seller_id)
          (by intro a; cases h : a.id == input.id <;> simp [h]) s.orders,
        hfind, Option.map_some']
      simp [beq_def, ho_id]
    have hmem2 : input.status ∉ VALID_STATUS_TRANSITIONS
        ({ o with status := input.status, updated_at := now } : Order).status := by
      show input.status ∉ VALID_STATUS_TRANSITIONS input.status
      rw [htarget]
      simp [VALID_STATUS_TRANSITIONS]
    rw [updateOrderStatus_found_invalid (cancelledStore input now s) input now2
      _ hford hmem2]
    simp [htarget]

/-- Witness for C5 at the two-item pending order: stock of product 10 goes
back from 95 to 100, and re-cancelling fails leaving the store as it was
after the first cancellation. -/
theorem updateOrderStatus_cancel_restores_stock_witness :
    stockOf (updateOrderStatus orderedStore cancelInput 9).2 10
      = (stockOf orderedStore 10).map (fun v =>
          v + (itemsQty (orderedStore.orderItems.filter
                (fun it => it.order_id == cancelInput.id)) 10 : Int)) ∧
    updateOrderStatus (updateOrderStatus orderedStore cancelInput 9).2 cancelInput 11
      = (.error (.invalidTransition OrderStatus.cancelled OrderStatus.cancelled),
         (updateOrderStatus orderedStore cancelInput 9).2) :=
  ⟨(updateOrderStatus_cancel_restores_stock orderedStore cancelInput 9 11 goodOrder
      (by decide) rfl (by decide)).2.1 10,
   (updateOrderStatus_cancel_restores_stock orderedStore cancelInput 9 11 goodOrder
      (by decide) rfl (by decide)).2.2⟩

/-- C7 counterexample: the restoration and the status write of
`updateOrderStatus` are separate statements with no enclosing transaction,
so a store failure thrown by the status write leaves the stock already
restored (95 to 100) while the order's status is still
pending_confirmation — a failure path whose final store differs from the
pre-request store, contradicting the claimed atomicity. -/
theorem updateOrderStatus_missing_transaction_counterexample :
    (updateOrderStatusFaulty orderedStore cancelInput 9 true).1 = .error .storeFailure ∧
    stockOf orderedStore 10 = some 95 ∧
    stockOf (updateOrderStatusFaulty orderedStore cancelInput 9 true).2 10 = some 100 ∧
    ((updateOrderStatusFaulty orderedStore cancelInput 9 true).2.orders.map
      (fun o => o.status)) = [OrderStatus.pending_confirmation] ∧
    (updateOrderStatusFaulty orderedStore cancelInput 9 true).2 ≠ orderedStore :=
  ⟨rfl, by decide, by decide, by decide, by decide⟩

/-- C7 (amended): the failure paths of the handler's own checks — null for
an unknown or unowned order, `InvalidTransition` for a target outside the
table — occur before any mutation and leave the store in its pre-request
state.  (The stock restoration and the status write, however, are not one
transaction; see the counterexample.) -/
theorem updateOrderStatus_own_failure_paths_unchanged (s : Store)
    (input : UpdateOrderStatusInput) (now : Nat) :
    ((updateOrderStatus s input now).1 = .ok none →
      (updateOrderStatus s input now).2 = s) ∧
    (∀ e, (updateOrderStatus s input now).1 = .error e →
      (updateOrderStatus s input now).2 = s) := by
  cases hfind : s.orders.find? (fun o => o.id == input.id && o.seller_id == input.seller_id) with
  | none =>
    have hres : updateOrderStatus s input now = (.ok none, s) := by
      simp only [updateOrderStatus, hfind]
    constructor
    · intro _
      rw [hres]
    · intro e he
      rw [hres] at he
      exact absurd he (by simp)
  | some o =>
    by_cases hmem : input.status ∈ VALID_STATUS_TRANSITIONS o.status
    · obtain ⟨o2, ho2⟩ := updateOrderStatus_valid_succeeds s input now o hfind hmem
      constructor
      · intro hnone
        rw [ho2] at hnone
        exact absurd hnone (by simp)
      · intro e he
        rw [ho2] at he
        exact absurd he (by simp)
    · rw [updateOrderStatus_found_invalid s input now o hfind hmem]
      exact ⟨fun _ => rfl, fun _ _ => rfl⟩

/-- Witness for the amended C7 at a rejected pending-to-delivered jump. -/
theorem updateOrderStatus_own_failure_paths_unchanged_witness :
    (updateOrderStatus orderedStore deliveredInput 9).2 = orderedStore :=
  (updateOrderStatus_own_failure_paths_unchanged orderedStore deliveredInput 9).2
    (.invalidTransition .pending_confirmation .delivered) rfl

/-- C9: a successful update whose target is not cancelled changes only the
orders table, and there only the rows carrying the requested id, and of
those only the status and updated_at fields; products, order items, users
and the serial counters are untouched. -/
theorem updateOrderStatus_non_cancel_frame (s : Store) (input : UpdateOrderStatusInput)
    (now : Nat) (o : Order)
    (hfind : s.orders.find? (fun o2 => o2.id == input.id && o2.seller_id == input.seller_id)
      = some o)
    (hmem : input.status ∈ VALID_STATUS_TRANSITIONS o.status)
    (hnc : input.status ≠ OrderStatus.cancelled) :
    (updateOrderStatus s input now).2.users = s.users ∧
    (updateOrderStatus s input now).2.products = s.products ∧
    (updateOrderStatus s input now).2.orderItems = s.orderItems ∧
    (updateOrderStatus s input now).2.nextOrderId = s.nextOrderId ∧
    (updateOrderStatus s input now).2.nextOrderItemId = s.nextOrderItemId ∧
    (updateOrderStatus s input now).2.orders
      = s.orders.map (fun o2 =>
          if o2.id == input.id then { o2 with status := input.status, updated_at := now }
          else o2) := by
  rw [updateOrderStatus_noncancel_eq s input now o hfind hmem hnc]
  exact ⟨rfl, rfl, rfl, rfl, rfl, rfl⟩

/-- Witness for C9 at a pending-to-confirmed transition. -/
theorem updateOrderStatus_non_cancel_frame_witness :
    (updateOrderStatus orderedStore confirmInput 9).2.products = orderedStore.products ∧
    (updateOrderStatus orderedStore confirmInput 9).2.orderItems = orderedStore.orderItems ∧
    (updateOrderStatus orderedStore confirmInput 9).2.orders
      = orderedStore.orders.map (fun o2 =>
          if o2.id == confirmInput.id then
            { o2 with status := confirmInput.status, updated_at := 9 }
          else o2) :=
  ⟨(updateOrderStatus_non_cancel_frame orderedStore confirmInput 9 goodOrder
      (by decide) (by decide) (by decide)).2.1,
   (updateOrderStatus_non_cancel_frame orderedStore confirmInput 9 goodOrder
      (by decide) (by decide) (by decide)).2.2.1,
   (updateOrderStatus_non_cancel_frame orderedStore confirmInput 9 goodOrder
      (by decide) (by decide) (by decide)).2.2.2.2.2⟩

/-- C10: cancellation still succeeds when an item's product row no longer
exists — the restore loop silently skips such items — and every product
still present is restored by the summed quantity of the order's items that
reference it. -/
theorem updateOrderStatus_cancel_skips_missing_product (s : Store)
    (input : UpdateOrderStatusInput) (now : Nat) (o : Order)
    (hfind : s.orders.find? (fun o2 => o2.id == input.id && o2.seller_id == input.seller_id)
      = some o)
    (htarget : input.status = OrderStatus.cancelled)
    (hallow : OrderStatus.cancelled ∈ VALID_STATUS_TRANSITIONS o.status)
    (_hmiss : ∃ it ∈ s.orderItems, it.order_id = input.id ∧ stockOf s it.product_id = none) :
    (∃ o2, (updateOrderStatus s input now).1 = .ok (some o2)) ∧
    (∀ pid, stockOf (updateOrderStatus s input now).2 pid
        = (stockOf s pid).map (fun v =>
            v + (itemsQty (s.orderItems.filter (fun it => it.order_id == input.id)) pid : Int))) := by
  have hmem : input.status ∈ VALID_STATUS_TRANSITIONS o.status := htarget ▸ hallow
  have h2 : (updateOrderStatus s input now).2 = cancelledStore input now s := by
    rw [updateOrderStatus_cancel_eq s input now o hfind htarget hallow]
  refine ⟨updateOrderStatus_valid_succeeds s input now o hfind hmem, ?_⟩
  intro pid
  rw [h2]
  exact restoreItems_stockOf now
    (s.orderItems.filter (fun it => it.order_id == input.id)) s pid

/-- Witness for C10 at a store whose second item row references the
dangling product id 999: the cancellation returns an updated order and
product 10 is still restored from 95 to 100. -/
theorem updateOrderStatus_cancel_skips_missing_product_witness :
    (∃ o2, (updateOrderStatus missingProductStore cancelInput 9).1 = .ok (some o2)) ∧
    stockOf (updateOrderStatus missingProductStore cancelInput 9).2 10 = some 100 ∧
    stockOf (updateOrderStatus missingProductStore cancelInput 9).2 999 = none := by
  have h := updateOrderStatus_cancel_skips_missing_product missingProductStore cancelInput 9
    goodOrder (by decide) rfl (by decide)
    ⟨⟨501, 100, 999, 4, 15, 60, 7⟩, by decide, by decide, by decide⟩
  refine ⟨h.1, ?_, ?_⟩
  · rw [h.2 10]
    decide
  · rw [h.2 999]
    decide

/-- C8: starting from a store whose stock quantities are all non-negative,
both `createOrder` and `updateOrderStatus` — on success and on failure —
leave every product's stock_quantity non-negative. -/
theorem stock_nonneg_invariant_preserved (s : Store) (cin : CreateOrderInput)
    (uin : UpdateOrderStatusInput) (now : Nat)
    (hs : ∀ p ∈ s.products, 0 ≤ p.stock_quantity) :
    (∀ p ∈ (createOrder s cin now).2.products, 0 ≤ p.stock_quantity) ∧
    (∀ p ∈ (updateOrderStatus s uin now).2.products, 0 ≤ p.stock_quantity) := by
  constructor
  · cases htx : createOrderTx s cin now with
    | error e =>
      have h2 : (createOrder s cin now).2 = s := by simp [createOrder, htx]
      rw [h2]
      exact hs
    | ok p =>
      obtain ⟨o, s2⟩ := p
      have h2 : (createOrder s cin now).2 = s2 := by simp [createOrder, htx]
      rw [h2]
      obtain ⟨vis, total, hval, ho, hs2⟩ := createOrderTx_ok s cin now o s2 htx
      rw [hs2]
      refine insertItems_nonneg s.nextOrderId now vis _ hs ?_
      exact lineOk_right s cin.seller_id
        (validateItems_ok_items s cin.seller_id cin.items vis total hval)
  · cases hfind : s.orders.find? (fun o2 => o2.id == uin.id && o2.seller_id == uin.seller_id) with
    | none =>
      have h2 : updateOrderStatus s uin now = (.ok none, s) := by
        simp only [updateOrderStatus, hfind]
      rw [h2]
      exact hs
    | some o =>
      by_cases hmem : uin.status ∈ VALID_STATUS_TRANSITIONS o.status
      · by_cases htarget : uin.status = OrderStatus.cancelled
        · have h2 : (updateOrderStatus s uin now).2 = cancelledStore uin now s := by
            rw [updateOrderStatus_cancel_eq s uin now o hfind htarget (htarget ▸ hmem)]
          rw [h2]
          exact restoreItems_nonneg now _ s hs
        · rw [updateOrderStatus_noncancel_eq s uin now o hfind hmem htarget]
          exact hs
      · rw [updateOrderStatus_found_invalid s uin now o hfind hmem]
        exact hs

/-- Witness for C8: a successful creation and a cancellation on the
two-product store keep all stocks non-negative. -/
theorem stock_nonneg_invariant_preserved_witness :
    (∀ p ∈ (createOrder orderedStore goodInput 9).2.products, 0 ≤ p.stock_quantity) ∧
    (∀ p ∈ (updateOrderStatus orderedStore cancelInput 9).2.products, 0 ≤ p.stock_quantity) :=
  stock_nonneg_invariant_preserved orderedStore goodInput cancelInput 9 (by decide)

/-- C2 counterexample: a request listing the same product in two lines
(quantities 3 and 4, stock 10) is accepted, but the product's stock ends
at 6: it decreases by 4 (the last line's quantity) instead of by the
requested 7 — the step-4 loop writes each line's captured
current_stock - quantity, so the last write wins. -/
theorem createOrder_duplicate_line_counterexample :
    (createOrder dupStore dupInput 7).1
      = .ok ⟨100, 1, 2, 14, .pending_confirmation, .cod, "789 Delivery Road", none, 7, 7⟩ ∧
    requestedQty dupInput 1 = 7 ∧
    stockOf dupStore 1 = some 10 ∧
    stockOf (createOrder dupStore dupInput 7).2 1 = some 6 ∧
    stockOf (createOrder dupStore dupInput 7).2 1
      ≠ (stockOf dupStore 1).map (fun v => v - (requestedQty dupInput 1 : Int)) := by
  have h1 : (createOrder dupStore dupInput 7).1
      = .ok ⟨100, 1, 2, 14, .pending_confirmation, .cod, "789 Delivery Road", none, 7, 7⟩ := by
    norm_num [createOrder, createOrderTx, validateItems, List.find?, beq_def,
      dupStore, dupInput, sampleCustomer, sampleSeller, eggProduct]
  have h4 : stockOf (createOrder dupStore dupInput 7).2 1 = some 6 := by
    norm_num [createOrder, createOrderTx, validateItems, insertItemsAndUpdateStock,
      stockOf, stockOfP, List.find?, beq_def,
      dupStore, dupInput, sampleCustomer, sampleSeller, eggProduct]
  refine ⟨h1, by decide, by decide, h4, ?_⟩
  rw [h4]
  decide

/-- C2 (amended): for a successful `createOrder` whose lines reference
pairwise-distinct products (and a products table with unique ids, the
primary-key invariant), exactly one order row is appended, with status
pending_confirmation and total_value the sum of the line totals; one item
row per line is appended with total_price = quantity × unit_price; and
each line's product loses exactly that line's quantity of stock, while
every other product keeps its stock.  (With duplicate lines the claimed
per-product decrement fails; see the counterexample.) -/
theorem createOrder_success_persists (s : Store) (input : CreateOrderInput) (now : Nat)
    (o : Order)
    (hok : (createOrder s input now).1 = .ok o)
    (hitems : (input.items.map (fun it => it.product_id)).Nodup)
    (hprods : (s.products.map (fun p => p.id)).Nodup) :
    o.status = .pending_confirmation ∧
    o.total_value = totalOf input.items ∧
    (createOrder s input now).2.orders = s.orders ++ [o] ∧
    (createOrder s input now).2.orderItems
      = s.orderItems ++ expectedOrderItems o.id s.nextOrderItemId now input.items ∧
    (∀ pid, stockOf (createOrder s input now).2 pid
        = match input.items.find? (fun it => it.product_id == pid) with
          | some it => (stockOf s pid).map (fun v => v - (it.quantity : Int))
          | none => stockOf s pid) := by
  cases htx : createOrderTx s input now with
  | error e => simp [createOrder, htx] at hok
  | ok p =>
    obtain ⟨o', s2⟩ := p
    have ho' : o' = o := by simpa [createOrder, htx] using hok
    subst ho'
    have h2 : (createOrder s input now).2 = s2 := by simp [createOrder, htx]
    obtain ⟨vis, total, hval, ho, hs2⟩ := createOrderTx_ok s input now o' s2 htx
    have hfa := validateItems_ok_items s input.seller_id input.items vis total hval
    have hvisnd : (vis.map (fun vi => vi.product_id)).Nodup := by
      rw [forall₂_map_pid s input.seller_id hfa]
      exact hitems
    have frame := insertItems_frame s.nextOrderId now vis
      { s with orders := s.orders ++ [o'], nextOrderId := s.nextOrderId + 1 }
    refine ⟨?_, ?_, ?_, ?_, ?_⟩
    · rw [ho]
    · rw [ho]
      exact validateItems_ok_total s input.seller_id input.items vis total hval
    · rw [h2, hs2]
      exact frame.2.1
    · rw [h2, hs2, frame.2.2.2]
      show s.orderItems ++ builtItems s.nextOrderId now s.nextOrderItemId vis = _
      rw [builtItems_eq_expected s.nextOrderId now s input.seller_id hfa s.nextOrderItemId, ho]
    · intro pid
      rw [h2, hs2,
        insertItems_stockOf s.nextOrderId now vis
          { s with orders := s.orders ++ [o'], nextOrderId := s.nextOrderId + 1 } pid hvisnd]
      have hsame : stockOf ({ s with orders := s.orders ++ [o'], nextOrderId := s.nextOrderId + 1 } : Store) pid = stockOf s pid := rfl
      rcases forall₂_find?_cases
          (fun it vi hln => by rw [hln.1] : ∀ (it : OrderItemInput) (vi : ValidatedItem),
            LineOk s input.seller_id it vi →
              (it.product_id == pid) = (vi.product_id == pid)) hfa with
        ⟨hn1, hn2⟩ | ⟨it, vi, hit, hvi, hln⟩
      · rw [hn1, hn2, hsame]
      · rw [hit, hvi, hsame]
        have hpid : it.product_id = pid := by
          have h := List.find?_some hit
          simpa [beq_def] using h
        obtain ⟨_, hq, _, _, pr, hpr, hcs, _⟩ := hln
        have hstockeq : stockOf s pid = some pr.stock_quantity := by
          rw [stockOf, stockOfP, ← hpid,
            find?_by_id_of_find?_seller s.products it.product_id input.seller_id pr hprods hpr]
          rfl
        rw [hstockeq]
        simp [hcs, hq]

/-- Witness for the amended C2 at the two-line request of the scenario:
total 155, one order row, two item rows, stocks 100 to 95 and 50 to 48. -/
theorem createOrder_success_persists_witness :
    goodOrder.status = .pending_confirmation ∧
    goodOrder.total_value = totalOf goodInput.items ∧
    (createOrder baseStore goodInput 7).2.orders = baseStore.orders ++ [goodOrder] ∧
    (createOrder baseStore goodInput 7).2.orderItems
      = baseStore.orderItems
        ++ expectedOrderItems goodOrder.id baseStore.nextOrderItemId 7 goodInput.items ∧
    (∀ pid, stockOf (createOrder baseStore goodInput 7).2 pid
        = match goodInput.items.find? (fun it => it.product_id == pid) with
          | some it => (stockOf baseStore pid).map (fun v => v - (it.quantity : Int))
          | none => stockOf baseStore pid) :=
  createOrder_success_persists baseStore goodInput 7 goodOrder
    (by norm_num [createOrder, createOrderTx, validateItems, List.find?, beq_def,
      baseStore, goodInput, goodOrder, sampleCustomer, sampleSeller,
      beefProduct, chickenProduct])
    (by decide) (by decide)

end FamilyGrocery
